import Mathlib

/-!
Verification of the response extractor/validator and quiz session logic of
`src/main.py` (a Streamlit trivia app). Python values are shallowly embedded
as `PyValue`; dicts are association lists with first-match lookup and
in-place update, matching Python dict semantics for the keys used here.
-/

set_option maxHeartbeats 1000000

/-- Embedding of the Python values that can flow through `json.loads` and
`validate_question`. `floatTok` keeps the literal text of a non-integer JSON
number; no claim depends on float arithmetic. -/
inductive PyValue where
  | str (s : String)
  | int (n : Int)
  | bool (b : Bool)
  | pyNone
  | floatTok (s : String)
  | list (xs : List PyValue)
  | dict (kvs : List (String × PyValue))

/-- Python exception taxonomy as it appears in `src/main.py`: `ValueError`
raised by the validator/extractor, `re.error` from the regex engine,
`json.JSONDecodeError` (a `ValueError` subclass, kept separate for clarity),
`TypeError` from illegal indexing/membership, and the `RuntimeError` wrapper
raised by `generate_question`'s `except Exception` block. -/
inductive PyErr where
  | valueError (msg : String)
  | reError (msg : String)
  | jsonError (msg : String)
  | typeError (msg : String)
  | runtimeError (msg : String)
deriving DecidableEq

/-- Python `str(e)` of an exception: its message. -/
def pyErrMsg : PyErr → String
  | .valueError m => m
  | .reError m => m
  | .jsonError m => m
  | .typeError m => m
  | .runtimeError m => m

/-- A single-quote character, written via its code point so that the source
never contains a bare apostrophe. -/
def apos : String := String.singleton (Char.ofNat 39)

def lbrace : Char := Char.ofNat 123

def rbrace : Char := Char.ofNat 125

def btick : Char := Char.ofNat 96

/-- First-match lookup in an association list (Python dict access for the
dicts produced by `json.loads`, whose keys are unique). -/
def lookup : List (String × PyValue) → String → Option PyValue
  | [], _ => none
  | (k0, v0) :: rest, k => if k0 = k then some v0 else lookup rest k

/-- Python `d[k] = v`: replace the value at the first occurrence of `k`,
else append the binding (insertion order preserved, as in CPython). -/
def setKey : List (String × PyValue) → String → PyValue → List (String × PyValue)
  | [], k, v => [(k, v)]
  | (k0, v0) :: rest, k, v => if k0 = k then (k0, v) :: rest else (k0, v0) :: setKey rest k v

/-- The whitespace set of Python's `str.strip()` / `\s`, restricted to ASCII
(the only whitespace that can occur in the strings of this development). -/
def pws (c : Char) : Bool :=
  c = ' ' ∨ c = Char.ofNat 9 ∨ c = Char.ofNat 10 ∨ c = Char.ofNat 13 ∨
    c = Char.ofNat 11 ∨ c = Char.ofNat 12

/-- Strip leading and trailing whitespace from a character list. -/
def stripList (l : List Char) : List Char :=
  ((l.dropWhile pws).reverse.dropWhile pws).reverse

/-- Python `s.strip()`. -/
def pstrip (s : String) : String := String.mk (stripList s.toList)

mutual

/-- Python `repr` for values nested inside containers, with the usual
simplifications (no escaping inside strings; floats keep their literal
text). Only scalar cases are exercised by the claims. -/
def pyRepr : PyValue → String
  | .str s => apos ++ s ++ apos
  | .int n => toString n
  | .bool b => if b then "True" else "False"
  | .pyNone => "None"
  | .floatTok s => s
  | .list xs => "[" ++ String.intercalate ", " (pyReprList xs) ++ "]"
  | .dict kvs => "\x7b" ++ String.intercalate ", " (pyReprKVs kvs) ++ "\x7d"

def pyReprList : List PyValue → List String
  | [] => []
  | x :: xs => pyRepr x :: pyReprList xs

def pyReprKVs : List (String × PyValue) → List String
  | [] => []
  | (k, v) :: kvs => (apos ++ k ++ apos ++ ": " ++ pyRepr v) :: pyReprKVs kvs

end

/-- Python `str(x)`: identity on strings, `repr`-style rendering otherwise. -/
def pyStr : PyValue → String
  | .str s => s
  | .int n => toString n
  | .bool b => if b then "True" else "False"
  | .pyNone => "None"
  | .floatTok s => s
  | v => pyRepr v

/-- Python `isinstance(x, str)`. -/
def isStr : PyValue → Bool
  | .str _ => true
  | _ => false

/-- Python `isinstance(x, list)`. -/
def isList : PyValue → Bool
  | .list _ => true
  | _ => false

/-- Python `isinstance(x, int)`. `bool` is a subclass of `int` in Python, so
booleans pass this check. -/
def isPyInt : PyValue → Bool
  | .int _ => true
  | .bool _ => true
  | _ => false

/-- The integer value of a Python int-like object (`True == 1`, `False == 0`);
only meaningful under `isPyInt`. -/
def pyIntVal : PyValue → Int
  | .int n => n
  | .bool b => if b then 1 else 0
  | _ => 0

def strVal : PyValue → String
  | .str s => s
  | _ => ""

def listVal : PyValue → List PyValue
  | .list xs => xs
  | _ => []

/-- Message of `ValueError(f"Missing field: {k}")` in `validate_question`. -/
def missingMsg (k : String) : String := "Missing field: " ++ k

/-- Message of `ValueError("Invalid 'question'.")` and its kin. -/
def invalidMsg (f : String) : String := "Invalid " ++ apos ++ f ++ apos ++ "."

def invalidOptionsListMsg : String := "Invalid " ++ apos ++ "options" ++ apos ++ " list."

def notEnoughOptionsMsg : String := "Not enough valid options."

def invalidIndexMsg : String := "Invalid " ++ apos ++ "correct_index" ++ apos ++ " position."

def listIndexMsg : String := "list indices must be integers or slices, not str"

def strIndexMsg : String := "string indices must be integers"

def notIterableMsg : String := "argument of type is not iterable"

/-- Line 89 of `src/main.py`:
`options = [str(x).strip() for x in obj["options"] if str(x).strip()]`. -/
def surviving (xs : List PyValue) : List String :=
  (xs.map (fun x => pstrip (pyStr x))).filter (fun s => !(s == ""))

/-- The `while len(options) < 4: options.append(f"None of the above {len(options)}")`
loop of lines 96-97, with explicit fuel (4 iterations always suffice). -/
def padTo4Aux : Nat → List String → List String
  | 0, l => l
  | n + 1, l =>
      if l.length < 4 then padTo4Aux n (l ++ ["None of the above " ++ toString l.length])
      else l

def padTo4 (l : List String) : List String := padTo4Aux 4 l

/-- Lines 92-97: truncate to the first 4 options, or pad with the synthetic
placeholders until exactly 4 exist. -/
def normOptions (xs : List PyValue) : List String :=
  if (surviving xs).length > 4 then (surviving xs).take 4 else padTo4 (surviving xs)

/-- The field checks of `validate_question` (lines 83-108) once all four
required keys are present: `qv, ov, civ, ev` are the values at
`question, options, correct_index, explanation`. -/
def validateFields (kvs : List (String × PyValue)) (qv ov civ ev : PyValue) :
    Except PyErr PyValue :=
  if isStr qv = false ∨ (pstrip (strVal qv)).length < 5 then
    .error (.valueError (invalidMsg "question"))
  else if isList ov = false ∨ (listVal ov).length < 2 then
    .error (.valueError invalidOptionsListMsg)
  else if (surviving (listVal ov)).length < 2 then
    .error (.valueError notEnoughOptionsMsg)
  else if isPyInt civ = false ∨
      ¬ (0 ≤ pyIntVal civ ∧ pyIntVal civ < ((normOptions (listVal ov)).length : Int)) then
    .error (.valueError invalidIndexMsg)
  else if isStr ev = false ∨ (pstrip (strVal ev)).length < 5 then
    .error (.valueError (invalidMsg "explanation"))
  else
    .ok (.dict (setKey (setKey kvs "options"
      (.list ((normOptions (listVal ov)).map PyValue.str))) "correct_index" civ))

/-- Python `k in v` restricted to a string element test (list membership of a
string compares `==` against each element; only `str` elements can match). -/
def isStrKey (k : String) : PyValue → Bool
  | .str s => s == k
  | _ => false

def startsWithL : List Char → List Char → Bool
  | [], _ => true
  | _ :: _, [] => false
  | c :: cs, d :: ds => c = d && startsWithL cs ds

/-- Python `needle in hay` for strings: substring containment. -/
def hasSubstr (needle : List Char) : List Char → Bool
  | [] => needle.isEmpty
  | hay@(_ :: rest) => startsWithL needle hay || hasSubstr needle rest

/-- `validate_question` of `src/main.py` lines 67-108, on the object returned
by `json.loads`. The required-key loop checks the four keys in order; for a
non-dict object Python's `in`/indexing semantics are reproduced (membership
for lists and substring test for strings succeed or fail per element; any
subsequent `obj["question"]` indexing raises `TypeError`, and `in` against a
non-container raises `TypeError` immediately). -/
def validate_question (obj : PyValue) : Except PyErr PyValue :=
  match obj with
  | .dict kvs =>
    if (lookup kvs "question").isNone then .error (.valueError (missingMsg "question"))
    else if (lookup kvs "options").isNone then .error (.valueError (missingMsg "options"))
    else if (lookup kvs "correct_index").isNone then .error (.valueError (missingMsg "correct_index"))
    else if (lookup kvs "explanation").isNone then .error (.valueError (missingMsg "explanation"))
    else
      validateFields kvs ((lookup kvs "question").getD .pyNone)
        ((lookup kvs "options").getD .pyNone)
        ((lookup kvs "correct_index").getD .pyNone)
        ((lookup kvs "explanation").getD .pyNone)
  | .list xs =>
    if (xs.any (isStrKey "question")) = false then .error (.valueError (missingMsg "question"))
    else if (xs.any (isStrKey "options")) = false then .error (.valueError (missingMsg "options"))
    else if (xs.any (isStrKey "correct_index")) = false then .error (.valueError (missingMsg "correct_index"))
    else if (xs.any (isStrKey "explanation")) = false then .error (.valueError (missingMsg "explanation"))
    else .error (.typeError listIndexMsg)
  | .str s =>
    if (hasSubstr "question".toList s.toList) = false then .error (.valueError (missingMsg "question"))
    else if (hasSubstr "options".toList s.toList) = false then .error (.valueError (missingMsg "options"))
    else if (hasSubstr "correct_index".toList s.toList) = false then .error (.valueError (missingMsg "correct_index"))
    else if (hasSubstr "explanation".toList s.toList) = false then .error (.valueError (missingMsg "explanation"))
    else .error (.typeError strIndexMsg)
  | _ => .error (.typeError notIterableMsg)

/-- Field access on a validated (or any dict-shaped) record. -/
def qLookup (q : PyValue) (k : String) : Option PyValue :=
  match q with
  | .dict kvs => lookup kvs k
  | _ => none

/-- The 4 option display strings of a validated record. -/
def qOptionStrs (q : PyValue) : List String :=
  match qLookup q "options" with
  | some (.list xs) => xs.map strVal
  | _ => []

def qCorrectVal (q : PyValue) : PyValue := (qLookup q "correct_index").getD .pyNone

example : validate_question (.dict
    [("question", .str "Which year did it end?"),
     ("options", .list [.str "a", .str "b"]),
     ("correct_index", .int 3),
     ("explanation", .str "Because of the treaty.")]) =
  .ok (.dict
    [("question", .str "Which year did it end?"),
     ("options", .list [.str "a", .str "b", .str "None of the above 2", .str "None of the above 3"]),
     ("correct_index", .int 3),
     ("explanation", .str "Because of the treaty.")]) := rfl

example : validate_question (.dict
    [("question", .str "Which year did it end?"),
     ("options", .list [.str "a", .str "b", .str "c", .str "d"]),
     ("correct_index", .int 0),
     ("explanation", .str "E")]) =
  .error (.valueError (invalidMsg "explanation")) := rfl

/-! ### Extraction stage: `extract_json_block` (lines 49-65) -/

def dropWs (cs : List Char) : List Char := cs.dropWhile pws

/-- Match a literal ` ``` ` at the head, returning the remainder. -/
def matchTicks : List Char → Option (List Char)
  | a :: b :: c :: rest => if a = btick ∧ b = btick ∧ c = btick then some rest else none
  | _ => none

/-- The greedy optional `(?:json)?` of the fence pattern. Committing to the
literal when present is equivalent to the backtracking semantics here: if
the input starts with `json` and the rest of the pattern fails, the empty
alternative also fails at once, since `j` is neither whitespace nor an
opening brace. -/
def stripJson (cs : List Char) : List Char :=
  if startsWithL ['j', 's', 'o', 'n'] cs then cs.drop 4 else cs

/-- Does `\s*` followed by a closing ` ``` ` match at this point? (Greedy
whitespace with backtracking degenerates to "skip all whitespace", since a
backtick is not whitespace.) -/
def closesFence (cs : List Char) : Bool := (matchTicks (dropWs cs)).isSome

/-- The lazy `.*?\}` scan: find the first `}` whose tail matches `\s*` ++
` ``` `, returning the capture's body (accumulated characters plus that `}`). -/
def findClose : List Char → List Char → Option (List Char)
  | _, [] => none
  | acc, c :: rest =>
    if c = rbrace ∧ closesFence rest then some (acc.reverse ++ [rbrace])
    else findClose (c :: acc) rest

/-- Attempt the fence pattern (with `re.S`) anchored at this position:
` ``` ` ++ `(?:json)?` ++ `\s*` ++ `(\{.*?\})` ++ `\s*` ++ ` ``` `.
Returns capture group 1. -/
def fenceMatchAt (cs : List Char) : Option (List Char) :=
  match matchTicks cs with
  | none => none
  | some r1 =>
    match dropWs (stripJson r1) with
    | [] => none
    | c :: r4 =>
      if c = lbrace then (findClose [] r4).map (fun body => lbrace :: body)
      else none

/-- `re.search`: try the pattern at each start position from the left. -/
def fenceSearch : List Char → Option (List Char)
  | [] => none
  | cs@(_ :: rest) =>
    match fenceMatchAt cs with
    | some cap => some cap
    | none => fenceSearch rest

/-- Message of the `re.error` raised by line 61 of `src/main.py`: the second
pattern `(\{(?:[^{}]|(?1))*\})` uses the recursive-group construct `(?1)` of
the third-party `regex` module, which CPython's `re` rejects when compiling
the pattern, before looking at the text. (Exact CPython wording is modeled;
no claim depends on the message text.) -/
def reUnknownExtMsg : String := "unknown extension ?1 at position 12"

/-- `extract_json_block` (lines 49-65). The fenced-block search is attempted
first; on any non-empty input without a fence match, the second `re.search`
raises `re.error` while compiling its pattern, so the balanced-scan and
raw-fallback branches are unreachable. -/
def extract_json_block (text : String) : Except PyErr String :=
  if text = "" then .error (.valueError "Empty response from model.")
  else
    match fenceSearch text.toList with
    | some cap => .ok (String.mk cap)
    | none => .error (.reError reUnknownExtMsg)

/-! ### `json.loads` on the candidate block -/

def jWs (c : Char) : Bool :=
  c = ' ' ∨ c = Char.ofNat 9 ∨ c = Char.ofNat 10 ∨ c = Char.ofNat 13

def skipWsJ (cs : List Char) : List Char := cs.dropWhile jWs

def hexVal (c : Char) : Option Nat :=
  if '0' ≤ c ∧ c ≤ '9' then some (c.toNat - 48)
  else if 'a' ≤ c ∧ c ≤ 'f' then some (c.toNat - 87)
  else if 'A' ≤ c ∧ c ≤ 'F' then some (c.toNat - 55)
  else none

def escChar (c : Char) : Option Char :=
  if c = '"' ∨ c = '\\' ∨ c = '/' then some c
  else if c = 'b' then some (Char.ofNat 8)
  else if c = 'f' then some (Char.ofNat 12)
  else if c = 'n' then some (Char.ofNat 10)
  else if c = 'r' then some (Char.ofNat 13)
  else if c = 't' then some (Char.ofNat 9)
  else none

/-- JSON string body scanner (strict mode: raw control characters rejected,
as in `json.loads`). Returns the decoded characters and the rest after the
closing quote. -/
def parseStrChars : List Char → List Char → Option (List Char × List Char)
  | _, [] => none
  | acc, c :: rest =>
    if c = '\\' then
      match rest with
      | [] => none
      | 'u' :: h1 :: h2 :: h3 :: h4 :: r3 =>
        match hexVal h1, hexVal h2, hexVal h3, hexVal h4 with
        | some a, some b, some c4, some d =>
            parseStrChars (Char.ofNat (((a * 16 + b) * 16 + c4) * 16 + d) :: acc) r3
        | _, _, _, _ => none
      | e :: r2 =>
        match escChar e with
        | some ec => parseStrChars (ec :: acc) r2
        | none => none
    else if c = '"' then some (acc.reverse, rest)
    else if c.toNat < 32 then none
    else parseStrChars (c :: acc) rest

def digitsToNat (ds : List Char) : Nat := ds.foldl (fun a c => a * 10 + (c.toNat - 48)) 0

/-- Optional JSON fraction part; consumes nothing when absent or malformed
(maximal-munch of the number regex used by `json`). -/
def parseFrac (cs : List Char) : List Char × List Char :=
  match cs with
  | '.' :: rest =>
    let fds := rest.takeWhile Char.isDigit
    if fds.isEmpty then ([], cs) else ('.' :: fds, rest.dropWhile Char.isDigit)
  | _ => ([], cs)

/-- Optional JSON exponent part, same convention as `parseFrac`. -/
def parseExp (cs : List Char) : List Char × List Char :=
  match cs with
  | c :: rest =>
    if c = 'e' ∨ c = 'E' then
      match rest with
      | s :: r2 =>
        if s = '+' ∨ s = '-' then
          let eds := r2.takeWhile Char.isDigit
          if eds.isEmpty then ([], cs) else (c :: s :: eds, r2.dropWhile Char.isDigit)
        else
          let eds := rest.takeWhile Char.isDigit
          if eds.isEmpty then ([], cs) else (c :: eds, rest.dropWhile Char.isDigit)
      | [] => ([], cs)
    else ([], cs)
  | [] => ([], cs)

/-- JSON number: integer numbers become Python `int`; numbers with a
fraction or exponent become floats, kept as their literal text. -/
def parseNum (cs : List Char) : Option (PyValue × List Char) :=
  let sgncs := match cs with
    | c :: rest => if c = '-' then (['-'], rest) else (([] : List Char), cs)
    | [] => (([] : List Char), cs)
  match sgncs.2 with
  | [] => none
  | c :: rest =>
    if ¬ c.isDigit then none
    else
      let intPart :=
        if c = '0' then (['0'], rest)
        else (c :: rest.takeWhile Char.isDigit, rest.dropWhile Char.isDigit)
      let fr := parseFrac intPart.2
      let ex := parseExp fr.2
      if fr.1.isEmpty ∧ ex.1.isEmpty then
        let n : Int := Int.ofNat (digitsToNat intPart.1)
        some (.int (if sgncs.1.isEmpty then n else -n), ex.2)
      else
        some (.floatTok (String.mk (sgncs.1 ++ intPart.1 ++ fr.1 ++ ex.1)), ex.2)

mutual

/-- JSON value parser with explicit fuel (`length + 1` always suffices;
only evaluated on concrete candidates). Duplicate object keys keep the last
value, as in `json.loads`. -/
def parseJ : Nat → List Char → Option (PyValue × List Char)
  | 0, _ => none
  | _ + 1, 't' :: 'r' :: 'u' :: 'e' :: rest => some (.bool true, rest)
  | _ + 1, 'f' :: 'a' :: 'l' :: 's' :: 'e' :: rest => some (.bool false, rest)
  | _ + 1, 'n' :: 'u' :: 'l' :: 'l' :: rest => some (.pyNone, rest)
  | _ + 1, [] => none
  | n + 1, c :: rest =>
    if c = '"' then
      match parseStrChars [] rest with
      | some (content, r2) => some (.str (String.mk content), r2)
      | none => none
    else if c = lbrace then
      match skipWsJ rest with
      | c2 :: r3 => if c2 = rbrace then some (.dict [], r3) else parseMembers n [] (skipWsJ rest)
      | [] => none
    else if c = '[' then
      match skipWsJ rest with
      | c2 :: r3 => if c2 = ']' then some (.list [], r3) else parseItems n [] (skipWsJ rest)
      | [] => none
    else parseNum (c :: rest)

def parseMembers : Nat → List (String × PyValue) → List Char → Option (PyValue × List Char)
  | 0, _, _ => none
  | n + 1, acc, cs =>
    match cs with
    | c :: r1 =>
      if c = '"' then
        match parseStrChars [] r1 with
        | some (kcs, r2) =>
          (match skipWsJ r2 with
           | c2 :: r3 =>
             if c2 = ':' then
               match parseJ n (skipWsJ r3) with
               | some (v, r4) =>
                 (match skipWsJ r4 with
                  | c3 :: r5 =>
                    if c3 = ',' then parseMembers n (setKey acc (String.mk kcs) v) (skipWsJ r5)
                    else if c3 = rbrace then some (.dict (setKey acc (String.mk kcs) v), r5)
                    else none
                  | [] => none)
               | none => none
             else none
           | [] => none)
        | none => none
      else none
    | [] => none

def parseItems : Nat → List PyValue → List Char → Option (PyValue × List Char)
  | 0, _, _ => none
  | n + 1, acc, cs =>
    match parseJ n cs with
    | some (v, r1) =>
      (match skipWsJ r1 with
       | c2 :: r2 =>
         if c2 = ',' then parseItems n (acc ++ [v]) (skipWsJ r2)
         else if c2 = ']' then some (.list (acc ++ [v]), r2)
         else none
       | [] => none)
    | none => none

end

/-- `json.loads` on the candidate block (error messages abbreviated from
CPython's, which also report line/column). -/
def json_loads (s : String) : Except PyErr PyValue :=
  match parseJ (s.length + 1) (skipWsJ s.toList) with
  | some (v, rest) =>
      if skipWsJ rest = [] then .ok v else .error (.jsonError "Extra data")
  | none => .error (.jsonError "Expecting value")

/-! ### `generate_question` (lines 122-155): the deterministic tail -/

/-- The `except Exception as e: raise RuntimeError(f"Model error: {e}")`
wrapper of lines 154-155. -/
def wrapModelError : Except PyErr PyValue → Except PyErr PyValue
  | .ok q => .ok q
  | .error e => .error (.runtimeError ("Model error: " ++ pyErrMsg e))

/-- The deterministic part of `generate_question` (lines 150-155), given the
raw reply text of the external LLM call: `extract_json_block`, `json.loads`,
`validate_question`, all inside the try/except that wraps any exception into
`RuntimeError("Model error: ...")`. -/
def generate_question (raw : String) : Except PyErr PyValue :=
  wrapModelError
    (match extract_json_block raw with
     | .error e => .error e
     | .ok block =>
       match json_loads block with
       | .error e => .error e
       | .ok obj => validate_question obj)

/-! ### Session state (lines 158-226, 241-246) -/

/-- The quiz-relevant slice of `st.session_state`. -/
structure SessionState where
  quiz : List PyValue
  asked_questions : List String
  current : Nat
  score : Nat
  answered : Bool
  selected : Option Nat

def initSession : SessionState := ⟨[], [], 0, 0, false, none⟩

/-- `ensure_quiz_built` (lines 197-208): `needed = total_q - len(quiz)`;
return if no deficit, else loop `needed` times appending a generated
question and its prompt. `accepted` supplies the validated question dicts of
the successful `generate_question` calls; a failing call would abort the
loop early (keeping prior appends) and only lower the number added. -/
def ensure_quiz_built (total_q : Nat) (s : SessionState) (accepted : Nat → PyValue) :
    SessionState :=
  let needed := total_q - s.quiz.length
  if needed = 0 then s
  else
    let newQs := (List.range needed).map accepted
    { s with
      quiz := s.quiz ++ newQs,
      asked_questions :=
        s.asked_questions ++ newQs.map (fun q => strVal ((qLookup q "question").getD .pyNone)) }

/-- `ratio = score / total if total else 0` (line 245). Python's float
division is modeled as exact rational division. -/
def score_over_total (score total : Nat) : ℚ :=
  if total ≠ 0 then (score : ℚ) / (total : ℚ) else 0

def c5_raw : String :=
  "```json\n\x7b\"question\":\"Q\",\"options\":[\"a\",\"b\"],\"correct_index\":0,\"explanation\":\"E\"\x7d\n```"

example : extract_json_block c5_raw =
  .ok "\x7b\"question\":\"Q\",\"options\":[\"a\",\"b\"],\"correct_index\":0,\"explanation\":\"E\"\x7d" := rfl

example : generate_question c5_raw =
  .error (.runtimeError ("Model error: " ++ invalidMsg "question")) := rfl

/-! ### Concrete inputs used by the claim theorems -/

def requiredKeys : List String := ["question", "options", "correct_index", "explanation"]

/-- The required keys the object is missing, in the order the loop of lines
79-81 checks them. -/
def missingKeys (kvs : List (String × PyValue)) : List String :=
  requiredKeys.filter (fun k => (lookup kvs k).isNone)

def c1_input : PyValue := .dict
  [("question", .str "Which year did the war end?"),
   ("options", .list [.str "1917", .str "1918"]),
   ("correct_index", .int 3),
   ("explanation", .str "It ended with the armistice.")]

def c1_output : PyValue := .dict
  [("question", .str "Which year did the war end?"),
   ("options", .list [.str "1917", .str "1918", .str "None of the above 2",
     .str "None of the above 3"]),
   ("correct_index", .int 3),
   ("explanation", .str "It ended with the armistice.")]

def c1w_input : PyValue := .dict
  [("question", .str "Which age came first?"),
   ("options", .list [.str "stone", .str "bronze"]),
   ("correct_index", .int 1),
   ("explanation", .str "Stone tools predate bronze.")]

def c2_family (e : String) : PyValue := .dict
  [("question", .str "Which empire fell first?"),
   ("options", .list [.str "aa", .str "bb", .str "cc", .str "dd"]),
   ("correct_index", .int 0),
   ("explanation", .str e)]

def c3w_raw : String := "Sure! Here is the question: \x7b\"question\": \"Who"

def c4_input : PyValue := .dict
  [("prompt", .str "Which city was the capital?"),
   ("options", .list [.str "Rome", .str "Milan", .str "Turin", .str "Naples"]),
   ("correctIndex", .int 0),
   ("explanation", .str "Rome was the capital.")]

def c4w_kvs : List (String × PyValue) :=
  [("question", .str "Which city was the capital?"),
   ("options", .list [.str "Rome", .str "Milan", .str "Turin", .str "Naples"]),
   ("correctIndex", .int 0),
   ("explanation", .str "Rome was the capital.")]

def c5_amended_raw : String :=
  "```json\n\x7b\"question\":\"Question?\",\"options\":[\"a\",\"b\"],\"correct_index\":0,\"explanation\":\"Explanation.\"\x7d\n```"

def c5_amended_out : PyValue := .dict
  [("question", .str "Question?"),
   ("options", .list [.str "a", .str "b", .str "None of the above 2",
     .str "None of the above 3"]),
   ("correct_index", .int 0),
   ("explanation", .str "Explanation.")]

def c6_input : PyValue := .dict
  [("question", .str "  Which pharaoh built the Great Pyramid?  "),
   ("options", .list [.str "Khufu", .str "Khafre", .str "Menkaure", .str "Djoser"]),
   ("correct_index", .int 0),
   ("explanation", .str "Built for Khufu at Giza.")]

def c6_output : PyValue := .dict
  [("question", .str "  Which pharaoh built the Great Pyramid?  "),
   ("options", .list [.str "Khufu", .str "Khafre", .str "Menkaure", .str "Djoser"]),
   ("correct_index", .int 0),
   ("explanation", .str "Built for Khufu at Giza.")]

def c6w_input : PyValue := .dict
  [("question", .str "Which sea lies east of Italy?"),
   ("options", .list [.str "Adriatic", .str "Tyrrhenian"]),
   ("correct_index", .int 0),
   ("explanation", .str "The Adriatic Sea does.")]

def c6w_output : PyValue := .dict
  [("question", .str "Which sea lies east of Italy?"),
   ("options", .list [.str "Adriatic", .str "Tyrrhenian", .str "None of the above 2",
     .str "None of the above 3"]),
   ("correct_index", .int 0),
   ("explanation", .str "The Adriatic Sea does.")]

def c7_input : PyValue := .dict
  [("question", .str "Which repeated option wins?"),
   ("options", .list [.str "dup", .str "dup", .str "dup", .str "dup"]),
   ("correct_index", .int 0),
   ("explanation", .str "All four are identical.")]

def c7_output : PyValue := .dict
  [("question", .str "Which repeated option wins?"),
   ("options", .list [.str "dup", .str "dup", .str "dup", .str "dup"]),
   ("correct_index", .int 0),
   ("explanation", .str "All four are identical.")]

def c7w_input : PyValue := .dict
  [("question", .str "Which ocean is largest?"),
   ("options", .list [.str "Pacific", .str "Atlantic"]),
   ("correct_index", .int 0),
   ("explanation", .str "The Pacific is largest.")]

def c10_input (b : Bool) : PyValue := .dict
  [("question", .str "Which option is correct here?"),
   ("options", .list [.str "alpha", .str "beta", .str "gamma", .str "delta"]),
   ("correct_index", .bool b),
   ("explanation", .str "A boolean index is an int.")]

def c10_output (b : Bool) : PyValue := .dict
  [("question", .str "Which option is correct here?"),
   ("options", .list [.str "alpha", .str "beta", .str "gamma", .str "delta"]),
   ("correct_index", .bool b),
   ("explanation", .str "A boolean index is an int.")]

def c1w_kvs : List (String × PyValue) :=
  [("question", .str "Which age came first?"),
   ("options", .list [.str "stone", .str "bronze"]),
   ("correct_index", .int 1),
   ("explanation", .str "Stone tools predate bronze.")]

def c1w_output : PyValue := .dict
  [("question", .str "Which age came first?"),
   ("options", .list [.str "stone", .str "bronze", .str "None of the above 2",
     .str "None of the above 3"]),
   ("correct_index", .int 1),
   ("explanation", .str "Stone tools predate bronze.")]

def c7w_kvs : List (String × PyValue) :=
  [("question", .str "Which ocean is largest?"),
   ("options", .list [.str "Pacific", .str "Atlantic"]),
   ("correct_index", .int 0),
   ("explanation", .str "The Pacific is largest.")]

def c7w_output : PyValue := .dict
  [("question", .str "Which ocean is largest?"),
   ("options", .list [.str "Pacific", .str "Atlantic", .str "None of the above 2",
     .str "None of the above 3"]),
   ("correct_index", .int 0),
   ("explanation", .str "The Pacific is largest.")]

/-- A constant supply of accepted questions for exercising the build loop. -/
def c8_supply : Nat → PyValue := fun _ => PyValue.pyNone

/-! ### Association-list lemmas -/

theorem lookup_setKey_self (l : List (String × PyValue)) (k : String) (v : PyValue) :
    lookup (setKey l k v) k = some v := by
  induction l with
  | nil => simp [setKey, lookup]
  | cons kv rest ih =>
    obtain ⟨k0, v0⟩ := kv
    by_cases h : k0 = k
    · simp [setKey, lookup, h]
    · simp [setKey, lookup, h, ih]

theorem lookup_setKey_of_ne (l : List (String × PyValue)) (k k2 : String) (v : PyValue)
    (h : k ≠ k2) : lookup (setKey l k v) k2 = lookup l k2 := by
  induction l with
  | nil => simp [setKey, lookup, fun hk => h hk]
  | cons kv rest ih =>
    obtain ⟨k0, v0⟩ := kv
    by_cases h0 : k0 = k
    · subst h0
      have hne : k0 ≠ k2 := h
      simp [setKey, lookup, hne]
    · simp [setKey, lookup, h0, ih]

/-! ### Strip and padding lemmas -/

theorem dropWhile_dropWhile {α : Type} (p : α → Bool) (l : List α) :
    (l.dropWhile p).dropWhile p = l.dropWhile p := by
  induction l with
  | nil => simp
  | cons a t ih =>
    by_cases ha : p a
    · simp [List.dropWhile_cons, ha, ih]
    · simp [List.dropWhile_cons, ha]

theorem head_dropWhile_false {α : Type} (p : α → Bool) (l : List α) (c : α) (cs : List α)
    (h : l.dropWhile p = c :: cs) : p c = false := by
  induction l with
  | nil => simp [List.dropWhile] at h
  | cons a t ih =>
    rw [List.dropWhile_cons] at h
    by_cases ha : p a
    · rw [if_pos ha] at h; exact ih h
    · rw [if_neg ha] at h
      injection h with h1 h2
      subst h1
      simpa using ha

theorem dropWhile_reverse_dropWhile {α : Type} (p : α → Bool) (m : List α)
    (hhead : ∀ c cs, m = c :: cs → p c = false) :
    ((m.reverse.dropWhile p).reverse).dropWhile p = (m.reverse.dropWhile p).reverse := by
  rcases hqr : (m.reverse.dropWhile p).reverse with - | ⟨c, cs⟩
  · simp
  · have hsplit : m = (m.reverse.dropWhile p).reverse ++ (m.reverse.takeWhile p).reverse := by
      calc m = m.reverse.reverse := (List.reverse_reverse m).symm
        _ = ((m.reverse.takeWhile p) ++ (m.reverse.dropWhile p)).reverse := by
              rw [List.takeWhile_append_dropWhile]
        _ = (m.reverse.dropWhile p).reverse ++ (m.reverse.takeWhile p).reverse := by
              rw [List.reverse_append]
    have hm : m = c :: (cs ++ (m.reverse.takeWhile p).reverse) := by
      conv_lhs => rw [hsplit, hqr]
      simp
    have hc := hhead c _ hm
    rw [List.dropWhile_cons, if_neg (by simp [hc])]

theorem stripList_idem (l : List Char) : stripList (stripList l) = stripList l := by
  have h1 := dropWhile_reverse_dropWhile pws (l.dropWhile pws)
    (fun c cs h => head_dropWhile_false pws l c cs h)
  unfold stripList
  rw [h1, List.reverse_reverse, dropWhile_dropWhile]

theorem pstrip_idem (s : String) : pstrip (pstrip s) = pstrip s := by
  unfold pstrip
  rw [show (String.mk (stripList s.toList)).toList = stripList s.toList from rfl, stripList_idem]

theorem padTo4Aux_spec : ∀ (n : Nat) (l : List String), 4 ≤ l.length + n →
    ∃ pads, padTo4Aux n l = l ++ pads ∧ (l ++ pads).length = max l.length 4 ∧
      ∀ i, i < pads.length →
        pads[i]? = some ("None of the above " ++ toString (l.length + i)) := by
  intro n
  induction n with
  | zero =>
    intro l h
    exact ⟨[], by simp [padTo4Aux], by simp; omega, by simp⟩
  | succ n ih =>
    intro l h
    by_cases hl : l.length < 4
    · have h2 : 4 ≤ (l ++ ["None of the above " ++ toString l.length]).length + n := by
        simp; omega
      obtain ⟨pads, he, hlen, hget⟩ := ih _ h2
      refine ⟨("None of the above " ++ toString l.length) :: pads, ?_, ?_, ?_⟩
      · show padTo4Aux (n + 1) l = _
        rw [show padTo4Aux (n + 1) l =
          if l.length < 4 then
            padTo4Aux n (l ++ ["None of the above " ++ toString l.length]) else l from rfl]
        rw [if_pos hl, he]; simp
      · simp at hlen ⊢
        omega
      · intro i hi
        cases i with
        | zero => simp
        | succ j =>
          have hj : j < pads.length := by simpa using hi
          have heq : (l ++ ["None of the above " ++ toString l.length]).length + j =
              l.length + (j + 1) := by simp; omega
          rw [List.getElem?_cons_succ, hget j hj, heq]
    · refine ⟨[], ?_, by simp; omega, by simp⟩
      show padTo4Aux (n + 1) l = _
      rw [show padTo4Aux (n + 1) l =
        if l.length < 4 then
          padTo4Aux n (l ++ ["None of the above " ++ toString l.length]) else l from rfl]
      rw [if_neg hl]; simp

theorem padTo4_spec (l : List String) :
    ∃ pads, padTo4 l = l ++ pads ∧ (l ++ pads).length = max l.length 4 ∧
      ∀ i, i < pads.length →
        pads[i]? = some ("None of the above " ++ toString (l.length + i)) :=
  padTo4Aux_spec 4 l (by omega)

theorem normOptions_length (xs : List PyValue) (h2 : 2 ≤ (surviving xs).length) :
    (normOptions xs).length = 4 := by
  unfold normOptions
  split
  · next h4 => simp [List.length_take]; omega
  · next h4 =>
    obtain ⟨pads, he, hlen, -⟩ := padTo4_spec (surviving xs)
    rw [he, hlen]; omega

theorem mem_surviving (xs : List PyValue) (s : String) (h : s ∈ surviving xs) :
    s ≠ "" ∧ pstrip s = s := by
  unfold surviving at h
  obtain ⟨hmem, hpred⟩ := List.mem_filter.mp h
  refine ⟨by simpa using hpred, ?_⟩
  obtain ⟨x, -, hx⟩ := List.mem_map.mp hmem
  rw [← hx]; exact pstrip_idem _

theorem mem_normOptions (xs : List PyValue) (s : String) (h2 : 2 ≤ (surviving xs).length)
    (hs : s ∈ normOptions xs) :
    s ∈ surviving xs ∨ s = "None of the above 2" ∨ s = "None of the above 3" := by
  unfold normOptions at hs
  split at hs
  · exact Or.inl (List.mem_of_mem_take hs)
  · next h4 =>
    obtain ⟨pads, he, hlen, hget⟩ := padTo4_spec (surviving xs)
    rw [he] at hs
    rcases List.mem_append.mp hs with h | h
    · exact Or.inl h
    · obtain ⟨i, hv⟩ := List.mem_iff_getElem?.mp h
      have hi : i < pads.length := by
        obtain ⟨hlt, -⟩ := List.getElem?_eq_some.mp hv
        exact hlt
      rw [hget i hi] at hv
      have hs2 : s = "None of the above " ++ toString ((surviving xs).length + i) :=
        (Option.some.inj hv).symm
      have hk4 : (surviving xs).length + i < 4 := by
        simp at hlen
        omega
      have hk23 : (surviving xs).length + i = 2 ∨ (surviving xs).length + i = 3 := by omega
      rcases hk23 with hh | hh
      · right; left; rw [hs2, hh]; rfl
      · right; right; rw [hs2, hh]; rfl

theorem normOptions_getElem (xs : List PyValue) (i : Nat) (hi : i < (surviving xs).length)
    (hi4 : i < 4) : (normOptions xs)[i]? = (surviving xs)[i]? := by
  unfold normOptions
  split
  · rw [List.getElem?_take, if_pos hi4]
  · obtain ⟨pads, he, -, -⟩ := padTo4_spec (surviving xs)
    rw [he, List.getElem?_append_left hi]

/-! ### Inversion of accepted inputs -/

theorem validate_ok_shape (obj q : PyValue) (h : validate_question obj = .ok q) :
    ∃ kvs qv ov civ ev,
      obj = .dict kvs ∧
      lookup kvs "question" = some qv ∧ lookup kvs "options" = some ov ∧
      lookup kvs "correct_index" = some civ ∧ lookup kvs "explanation" = some ev ∧
      isStr qv = true ∧ 5 ≤ (pstrip (strVal qv)).length ∧
      isList ov = true ∧ 2 ≤ (listVal ov).length ∧
      2 ≤ (surviving (listVal ov)).length ∧
      isPyInt civ = true ∧ 0 ≤ pyIntVal civ ∧
      pyIntVal civ < ((normOptions (listVal ov)).length : Int) ∧
      isStr ev = true ∧ 5 ≤ (pstrip (strVal ev)).length ∧
      q = .dict (setKey (setKey kvs "options"
        (.list ((normOptions (listVal ov)).map PyValue.str))) "correct_index" civ) := by
  cases obj with
  | str s =>
    simp only [validate_question] at h
    split at h
    · simp at h
    split at h
    · simp at h
    split at h
    · simp at h
    split at h
    · simp at h
    simp at h
  | int n => simp [validate_question] at h
  | bool b => simp [validate_question] at h
  | pyNone => simp [validate_question] at h
  | floatTok s => simp [validate_question] at h
  | list xs =>
    simp only [validate_question] at h
    split at h
    · simp at h
    split at h
    · simp at h
    split at h
    · simp at h
    split at h
    · simp at h
    simp at h
  | dict kvs =>
    rcases hq : lookup kvs "question" with - | qv
    · simp [validate_question, hq] at h
    rcases ho : lookup kvs "options" with - | ov
    · simp [validate_question, hq, ho] at h
    rcases hci : lookup kvs "correct_index" with - | civ
    · simp [validate_question, hq, ho, hci] at h
    rcases hev : lookup kvs "explanation" with - | ev
    · simp [validate_question, hq, ho, hci, hev] at h
    rw [show validate_question (.dict kvs) =
      (if (lookup kvs "question").isNone then .error (.valueError (missingMsg "question"))
       else if (lookup kvs "options").isNone then .error (.valueError (missingMsg "options"))
       else if (lookup kvs "correct_index").isNone then
         .error (.valueError (missingMsg "correct_index"))
       else if (lookup kvs "explanation").isNone then
         .error (.valueError (missingMsg "explanation"))
       else
         validateFields kvs ((lookup kvs "question").getD .pyNone)
           ((lookup kvs "options").getD .pyNone)
           ((lookup kvs "correct_index").getD .pyNone)
           ((lookup kvs "explanation").getD .pyNone)) from rfl, hq, ho, hci, hev] at h
    simp only [Option.isNone_some, Bool.false_eq_true, if_false, Option.getD_some] at h
    unfold validateFields at h
    split at h
    · simp at h
    next hc1 =>
    split at h
    · simp at h
    next hc2 =>
    split at h
    · simp at h
    next hc3 =>
    split at h
    · simp at h
    next hc4 =>
    split at h
    · simp at h
    next hc5 =>
    simp only [not_or, Bool.not_eq_false, not_lt] at hc1 hc2
    simp only [not_or, Bool.not_eq_false, not_not] at hc4
    simp only [not_lt] at hc3
    simp only [not_or, Bool.not_eq_false, not_lt] at hc5
    injection h with hqq
    exact ⟨kvs, qv, ov, civ, ev, rfl, hq, ho, hci, hev,
      hc1.1, hc1.2, hc2.1, hc2.2, hc3, hc4.1, hc4.2.1, hc4.2.2, hc5.1, hc5.2, hqq.symm⟩

/-! ### Fence-search lemmas -/

theorem mem_of_mem_dropWhile {α : Type} (p : α → Bool) (l : List α) (a : α)
    (h : a ∈ l.dropWhile p) : a ∈ l :=
  List.Sublist.mem h (List.dropWhile_sublist p)

theorem matchTicks_mem {cs r : List Char} (h : matchTicks cs = some r) {a : Char}
    (ha : a ∈ r) : a ∈ cs := by
  cases cs with
  | nil => simp [matchTicks] at h
  | cons a1 t1 =>
    cases t1 with
    | nil => simp [matchTicks] at h
    | cons a2 t2 =>
      cases t2 with
      | nil => simp [matchTicks] at h
      | cons a3 rest =>
        rw [show matchTicks (a1 :: a2 :: a3 :: rest) =
          (if a1 = btick ∧ a2 = btick ∧ a3 = btick then some rest else none) from rfl] at h
        by_cases hb : a1 = btick ∧ a2 = btick ∧ a3 = btick
        · rw [if_pos hb] at h
          injection h with hh
          subst hh
          exact List.mem_cons_of_mem _ (List.mem_cons_of_mem _ (List.mem_cons_of_mem _ ha))
        · rw [if_neg hb] at h
          exact Option.noConfusion h

theorem stripJson_mem {cs : List Char} {a : Char} (h : a ∈ stripJson cs) : a ∈ cs := by
  unfold stripJson at h
  split at h
  · exact List.Sublist.mem h (List.drop_sublist 4 cs)
  · exact h

theorem findClose_eq_none (acc cs : List Char) (h : rbrace ∉ cs) :
    findClose acc cs = none := by
  induction cs generalizing acc with
  | nil => rfl
  | cons c rest ih =>
    rw [List.mem_cons, not_or] at h
    show (if c = rbrace ∧ closesFence rest then _ else _) = none
    rw [if_neg (fun hh => h.1 hh.1.symm)]
    exact ih _ h.2

theorem fenceMatchAt_eq_none (cs : List Char) (h : rbrace ∉ cs) :
    fenceMatchAt cs = none := by
  rcases ht : matchTicks cs with - | r1
  · simp only [fenceMatchAt, ht]
  · have hr1 : rbrace ∉ dropWs (stripJson r1) := fun hm =>
      h (matchTicks_mem ht (stripJson_mem (mem_of_mem_dropWhile _ _ _ hm)))
    simp only [fenceMatchAt, ht]
    rcases hd : dropWs (stripJson r1) with - | ⟨c, r4⟩
    · simp only [hd]
    · rw [hd, List.mem_cons, not_or] at hr1
      simp only [hd]
      by_cases hc : c = lbrace
      · rw [if_pos hc, findClose_eq_none [] r4 hr1.2]
        rfl
      · rw [if_neg hc]

theorem fenceSearch_eq_none (cs : List Char) (h : rbrace ∉ cs) : fenceSearch cs = none := by
  induction cs with
  | nil => rfl
  | cons c rest ih =>
    rw [show fenceSearch (c :: rest) =
      (match fenceMatchAt (c :: rest) with
       | some cap => some cap
       | none => fenceSearch rest) from rfl,
      fenceMatchAt_eq_none _ h]
    exact ih (fun hm => h (List.mem_cons_of_mem _ hm))

/-! ### Accessors of the validated record -/

theorem isStr_exists {v : PyValue} (h : isStr v = true) : ∃ s, v = .str s := by
  cases v
  case str s => exact ⟨s, rfl⟩
  all_goals simp [isStr] at h

theorem qLookup_out_options (kvs : List (String × PyValue)) (civ : PyValue)
    (opts : List String) :
    qLookup (.dict (setKey (setKey kvs "options" (.list (opts.map PyValue.str)))
      "correct_index" civ)) "options" = some (.list (opts.map PyValue.str)) := by
  show lookup _ "options" = _
  rw [lookup_setKey_of_ne _ _ _ _ (by decide), lookup_setKey_self]

theorem qOptionStrs_out (kvs : List (String × PyValue)) (civ : PyValue)
    (opts : List String) :
    qOptionStrs (.dict (setKey (setKey kvs "options" (.list (opts.map PyValue.str)))
      "correct_index" civ)) = opts := by
  simp only [qOptionStrs, qLookup_out_options]
  rw [List.map_map]
  have hid : (strVal ∘ PyValue.str) = id := by
    funext s; rfl
  rw [hid, List.map_id]

theorem qLookup_out_ci (kvs : List (String × PyValue)) (civ X : PyValue) :
    qLookup (.dict (setKey (setKey kvs "options" X) "correct_index" civ))
      "correct_index" = some civ := by
  show lookup _ _ = _
  rw [lookup_setKey_self]

theorem qLookup_out_other (kvs : List (String × PyValue)) (civ X : PyValue) (k : String)
    (h1 : "options" ≠ k) (h2 : "correct_index" ≠ k) :
    qLookup (.dict (setKey (setKey kvs "options" X) "correct_index" civ)) k =
      lookup kvs k := by
  show lookup _ _ = _
  rw [lookup_setKey_of_ne _ _ _ _ h2, lookup_setKey_of_ne _ _ _ _ h1]

theorem list_eq_pair_of_length {α : Type} (l : List α) (h : l.length = 2) :
    ∃ a b, l = [a, b] := by
  rcases l with - | ⟨a, t⟩
  · simp at h
  rcases t with - | ⟨b, t2⟩
  · simp at h
  rcases t2 with - | ⟨c, t3⟩
  · exact ⟨a, b, rfl⟩
  · simp at h

theorem list_eq_single_of_length {α : Type} (l : List α) (h : l.length = 1) :
    ∃ a, l = [a] := by
  rcases l with - | ⟨a, t⟩
  · simp at h
  rcases t with - | ⟨b, t2⟩
  · exact ⟨a, rfl⟩
  · simp at h

/-! ### Claim theorems -/

/-- Claim C1, counterexample: validation accepts the 2-option input
`c1_input` with `correct_index = 3`; after padding, index 3 designates the
synthetic placeholder "None of the above 3", not a pre-existing option — so
a padding option can be the correct answer. -/
theorem C1_counterexample :
    validate_question c1_input = .ok c1_output ∧
    (surviving (listVal (.list [PyValue.str "1917", .str "1918"]))).length = 2 ∧
    qCorrectVal c1_output = .int 3 ∧
    (qOptionStrs c1_output)[(3 : Nat)]? = some "None of the above 3" ∧
    "None of the above 3" ∉ surviving (listVal (.list [PyValue.str "1917", .str "1918"])) :=
  ⟨rfl, rfl, rfl, rfl, by decide⟩

/-- Claim C1, amended: for every accepted input, option positions below the
number of surviving (non-empty, trimmed) input options keep referring to the
same original option text after truncation/padding; in particular a
correct_index below that count refers to a pre-existing option. The range
check, however, is made against the padded length 4, so a correct_index
pointing into the padding is also accepted (see the counterexample). -/
theorem C1_referent_preserved (kvs : List (String × PyValue)) (q ov : PyValue)
    (h : validate_question (.dict kvs) = .ok q)
    (ho : lookup kvs "options" = some ov)
    (i : Nat) (hi : i < (surviving (listVal ov)).length) (hi4 : i < 4) :
    (qOptionStrs q)[i]? = (surviving (listVal ov))[i]? := by
  obtain ⟨kvs2, qv, ov2, civ, ev, hobj, hq, ho2, hci, hev, -, -, -, -, hsurv, -, -, -, -, -,
    hout⟩ := validate_ok_shape _ q h
  injection hobj with hkv
  subst hkv
  rw [ho] at ho2
  injection ho2 with hov
  subst hov
  subst hout
  rw [qOptionStrs_out]
  exact normOptions_getElem _ _ hi hi4

/-- Claim C1, witness: the amended theorem applied to a concrete accepted
2-option input whose correct_index 1 refers to the original option "bronze". -/
theorem C1_witness :
    (qOptionStrs c1w_output)[(1 : Nat)]? =
      (surviving (listVal (PyValue.list [.str "stone", .str "bronze"])))[(1 : Nat)]? :=
  C1_referent_preserved c1w_kvs c1w_output (.list [.str "stone", .str "bronze"])
    (by rfl) (by rfl) 1 (by decide) (by decide)

/-- Claim C2, counterexample: an otherwise-valid object whose explanation is
the 1-character string "E" is rejected with `Invalid 'explanation'.` — the
code does not substitute a fallback placeholder. -/
theorem C2_counterexample :
    validate_question (c2_family "E") = .error (.valueError (invalidMsg "explanation")) := rfl

/-- Claim C2, amended: an empty or too-short (fewer than 5 characters after
trimming) explanation is a hard failure like every other field: validation
rejects the otherwise-valid object instead of degrading gracefully. -/
theorem C2_short_explanation_rejected (e : String) (h : (pstrip e).length < 5) :
    validate_question (c2_family e) = .error (.valueError (invalidMsg "explanation")) := by
  have hstep : validate_question (c2_family e) =
      (if isStr (.str e) = false ∨ (pstrip (strVal (.str e))).length < 5 then
        Except.error (PyErr.valueError (invalidMsg "explanation"))
      else
        Except.ok (PyValue.dict
          [("question", PyValue.str "Which empire fell first?"),
           ("options", PyValue.list [.str "aa", .str "bb", .str "cc", .str "dd"]),
           ("correct_index", PyValue.int 0),
           ("explanation", PyValue.str e)])) := rfl
  rw [hstep, if_pos (Or.inr (show (pstrip (strVal (.str e))).length < 5 from h))]

/-- Claim C2, witness: the amended theorem at the empty explanation. -/
theorem C2_witness :
    validate_question (c2_family "") = .error (.valueError (invalidMsg "explanation")) :=
  C2_short_explanation_rejected "" (by decide)

/-- Claim C3: a raw response containing an opening brace but no closing
brace (an unmatched brace: no balanced span exists and the whole text is not
parseable) makes generation fail with the wrapped RuntimeError raised at the
`generate_question` boundary — the code's realization of
MalformedResponseError; the internal `re.error` (the second pattern's `(?1)`
construct is rejected by Python's `re`) is caught there and never escapes. -/
theorem C3_unbalanced_wrapped (raw : String) (h1 : raw ≠ "")
    (h2 : lbrace ∈ raw.toList) (h3 : rbrace ∉ raw.toList) :
    generate_question raw =
      .error (.runtimeError ("Model error: " ++ reUnknownExtMsg)) := by
  unfold generate_question extract_json_block
  rw [if_neg h1, fenceSearch_eq_none _ h3]
  rfl

/-- Claim C3, witness: a concrete truncated reply with one unmatched brace. -/
theorem C3_witness :
    (c3w_raw ≠ "" ∧ lbrace ∈ c3w_raw.toList ∧ rbrace ∉ c3w_raw.toList) ∧
    generate_question c3w_raw =
      .error (.runtimeError ("Model error: " ++ reUnknownExtMsg)) :=
  ⟨⟨by decide, by decide, by decide⟩,
    C3_unbalanced_wrapped c3w_raw (by decide) (by decide) (by decide)⟩

/-- Claim C4, counterexample: the alternative spellings are NOT accepted: an
object carrying `prompt` and `correctIndex` (with valid options and
explanation) is rejected with `Missing field: question` instead of being
validated. -/
theorem C4_counterexample :
    validate_question c4_input = .error (.valueError (missingMsg "question")) := rfl

/-- Claim C4, amended: only the exact keys `question`, `options`,
`correct_index`, `explanation` are recognized (no alternative spellings);
whenever at least one of them is absent, validation fails with an error
naming the first missing key in that fixed order. -/
theorem C4_missing_key_named (kvs : List (String × PyValue))
    (h : missingKeys kvs ≠ []) :
    validate_question (.dict kvs) =
      .error (.valueError (missingMsg ((missingKeys kvs).headD ""))) := by
  by_cases h1 : (lookup kvs "question").isNone
  · simp [validate_question, missingKeys, requiredKeys, h1]
  · by_cases h2 : (lookup kvs "options").isNone
    · simp [validate_question, missingKeys, requiredKeys, h1, h2]
    · by_cases h3 : (lookup kvs "correct_index").isNone
      · simp [validate_question, missingKeys, requiredKeys, h1, h2, h3]
      · by_cases h4 : (lookup kvs "explanation").isNone
        · simp [validate_question, missingKeys, requiredKeys, h1, h2, h3, h4]
        · exact absurd (by simp [missingKeys, requiredKeys, h1, h2, h3, h4]) h

/-- Claim C4, witness: an object missing only `correct_index` (it has the
alternative spelling `correctIndex`) fails naming exactly that key. -/
theorem C4_witness :
    missingKeys c4w_kvs ≠ [] ∧
    validate_question (.dict c4w_kvs) =
      .error (.valueError (missingMsg ((missingKeys c4w_kvs).headD ""))) :=
  ⟨by decide, C4_missing_key_named c4w_kvs (by decide)⟩

/-- Claim C5, counterexample: the spec's exact fenced round-trip input is
NOT accepted: its question "Q" (and explanation "E") fail the uniform
5-character minimum the spec itself adopts, so the pipeline raises
`Invalid 'question'.` (wrapped at the boundary) instead of returning a
record with 4 options. -/
theorem C5_counterexample :
    generate_question c5_raw =
      .error (.runtimeError ("Model error: " ++ invalidMsg "question")) := rfl

/-- Claim C5, amended: once question and explanation meet the uniform
5-character minimum, the fenced response round-trips exactly as described:
4 options whose first two are the original "a" and "b", and correct index
0. -/
theorem C5_roundtrip :
    generate_question c5_amended_raw = .ok c5_amended_out ∧
    (qOptionStrs c5_amended_out).length = 4 ∧
    (qOptionStrs c5_amended_out).take 2 = ["a", "b"] ∧
    qCorrectVal c5_amended_out = .int 0 :=
  ⟨rfl, rfl, rfl, rfl⟩

/-- Claim C6, counterexample: the question (and explanation) are stored as
given, not trimmed: an accepted input whose question carries surrounding
whitespace yields a record whose question field is not trimmed text. -/
theorem C6_counterexample :
    validate_question c6_input = .ok c6_output ∧
    qLookup c6_output "question" =
      some (.str "  Which pharaoh built the Great Pyramid?  ") ∧
    pstrip "  Which pharaoh built the Great Pyramid?  " ≠
      "  Which pharaoh built the Great Pyramid?  " :=
  ⟨rfl, rfl, by decide⟩

/-- Claim C6, amended: every accepted input yields a record whose options
list has length exactly 4 with non-empty trimmed entries, whose
correct_index is an int-typed value (Python bool included) in [0, 4), and
whose question and explanation are strings with at least 5 characters after
trimming (hence non-empty) — though stored untrimmed, as the counterexample
shows. -/
theorem C6_invariants (obj q : PyValue) (h : validate_question obj = .ok q) :
    (qOptionStrs q).length = 4 ∧
    (∀ s ∈ qOptionStrs q, s ≠ "" ∧ pstrip s = s) ∧
    (∃ civ, qLookup q "correct_index" = some civ ∧ isPyInt civ = true ∧
      0 ≤ pyIntVal civ ∧ pyIntVal civ < 4) ∧
    (∃ qs, qLookup q "question" = some (.str qs) ∧ 5 ≤ (pstrip qs).length) ∧
    (∃ es, qLookup q "explanation" = some (.str es) ∧ 5 ≤ (pstrip es).length) := by
  obtain ⟨kvs, qv, ov, civ, ev, hobj, hq, ho, hci, hev, hqs, hqlen, hol, holen, hsurv,
    hcii, hci0, hcilt, hes, helen, hout⟩ := validate_ok_shape obj q h
  subst hout
  refine ⟨?_, ?_, ?_, ?_, ?_⟩
  · rw [qOptionStrs_out, normOptions_length _ hsurv]
  · intro s hs
    rw [qOptionStrs_out] at hs
    rcases mem_normOptions _ _ hsurv hs with h1 | h1 | h1
    · exact mem_surviving _ _ h1
    · subst h1; exact ⟨by decide, by decide⟩
    · subst h1; exact ⟨by decide, by decide⟩
  · refine ⟨civ, qLookup_out_ci _ _ _, hcii, hci0, ?_⟩
    rw [normOptions_length _ hsurv] at hcilt
    exact_mod_cast hcilt
  · obtain ⟨qs, rfl⟩ := isStr_exists hqs
    refine ⟨qs, ?_, ?_⟩
    · rw [qLookup_out_other _ _ _ _ (by decide) (by decide), hq]
    · simpa [strVal] using hqlen
  · obtain ⟨es, rfl⟩ := isStr_exists hes
    refine ⟨es, ?_, ?_⟩
    · rw [qLookup_out_other _ _ _ _ (by decide) (by decide), hev]
    · simpa [strVal] using helen

/-- Claim C6, witness: the amended invariants at a concrete accepted
2-option input. -/
theorem C6_witness :
    (qOptionStrs c6w_output).length = 4 ∧
    (∀ s ∈ qOptionStrs c6w_output, s ≠ "" ∧ pstrip s = s) ∧
    (∃ civ, qLookup c6w_output "correct_index" = some civ ∧ isPyInt civ = true ∧
      0 ≤ pyIntVal civ ∧ pyIntVal civ < 4) ∧
    (∃ qs, qLookup c6w_output "question" = some (.str qs) ∧ 5 ≤ (pstrip qs).length) ∧
    (∃ es, qLookup c6w_output "explanation" = some (.str es) ∧ 5 ≤ (pstrip es).length) :=
  C6_invariants c6w_input c6w_output (by rfl)

/-- Claim C7, counterexample: distinctness of the 4 options is not checked:
an input whose 4 options are all the string "dup" is accepted unchanged, so
the record's options are not pairwise distinct. -/
theorem C7_counterexample :
    validate_question c7_input = .ok c7_output ∧
    qOptionStrs c7_output = ["dup", "dup", "dup", "dup"] ∧
    ¬ (qOptionStrs c7_output).Nodup :=
  ⟨rfl, rfl, by decide⟩

/-- Claim C7, amended: validation does not enforce pairwise distinctness of
the 4 options (duplicates among the supplied options are preserved — see
the counterexample); only the synthetic padding placeholders appended by
validation are pairwise distinct among themselves. -/
theorem C7_padding_distinct (kvs : List (String × PyValue)) (q ov : PyValue)
    (h : validate_question (.dict kvs) = .ok q)
    (ho : lookup kvs "options" = some ov)
    (hpad : (surviving (listVal ov)).length < 4) :
    ∃ pads, qOptionStrs q = surviving (listVal ov) ++ pads ∧ pads ≠ [] ∧ pads.Nodup ∧
      ∀ s ∈ pads, s = "None of the above 2" ∨ s = "None of the above 3" := by
  obtain ⟨kvs2, qv, ov2, civ, ev, hobj, hq, ho2, hci, hev, -, -, -, -, hsurv, -, -, -, -, -,
    hout⟩ := validate_ok_shape _ q h
  injection hobj with hkv
  subst hkv
  rw [ho] at ho2
  injection ho2 with hov
  subst hov
  subst hout
  obtain ⟨pads, he, hlen, hget⟩ := padTo4_spec (surviving (listVal ov))
  have hnorm : normOptions (listVal ov) = surviving (listVal ov) ++ pads := by
    unfold normOptions
    rw [if_neg (by omega), he]
  have hplen : pads.length = 4 - (surviving (listVal ov)).length := by
    simp at hlen; omega
  have hpads : pads = ["None of the above 2", "None of the above 3"] ∨
      pads = ["None of the above 3"] := by
    have hsurv23 : (surviving (listVal ov)).length = 2 ∨
        (surviving (listVal ov)).length = 3 := by omega
    rcases hsurv23 with hs2 | hs3
    · left
      obtain ⟨a, b, rfl⟩ := list_eq_pair_of_length pads (by omega)
      have ha := hget 0 (by simp)
      have hb := hget 1 (by simp)
      rw [hs2] at ha hb
      simp only [List.getElem?_cons_zero, List.getElem?_cons_succ] at ha hb
      rw [Option.some.inj ha, Option.some.inj hb]
      rfl
    · right
      obtain ⟨a, rfl⟩ := list_eq_single_of_length pads (by omega)
      have ha := hget 0 (by simp)
      rw [hs3] at ha
      simp only [List.getElem?_cons_zero] at ha
      rw [Option.some.inj ha]
      rfl
  refine ⟨pads, by rw [qOptionStrs_out, hnorm], ?_, ?_, ?_⟩
  · rcases hpads with rfl | rfl <;> simp
  · rcases hpads with rfl | rfl
    · decide
    · simp
  · intro s hs
    rcases hpads with rfl | rfl
    · simp only [List.mem_cons, List.not_mem_nil, or_false] at hs
      rcases hs with rfl | rfl
      · exact Or.inl rfl
      · exact Or.inr rfl
    · simp only [List.mem_cons, List.not_mem_nil, or_false] at hs
      subst hs
      exact Or.inr rfl

/-- Claim C7, witness: the amended theorem at a concrete accepted 2-option
input, whose two padding placeholders are distinct. -/
theorem C7_witness :
    ∃ pads, qOptionStrs c7w_output =
        surviving (listVal (PyValue.list [.str "Pacific", .str "Atlantic"])) ++ pads ∧
      pads ≠ [] ∧ pads.Nodup ∧
      ∀ s ∈ pads, s = "None of the above 2" ∨ s = "None of the above 3" :=
  C7_padding_distinct c7w_kvs c7w_output (.list [.str "Pacific", .str "Atlantic"])
    (by rfl) (by rfl) (by decide)

/-- Claim C8 (code bug): the "➕ Add 1 Question" button handler calls
`ensure_quiz_built()`, which fills the quiz up to the configured total:
invoked on an empty quiz with `total_q = 3` it appends 3 questions — the
number added is `total_q - len(quiz)`, not at most 1. -/
theorem C8_fills_to_total :
    (ensure_quiz_built 3 initSession c8_supply).quiz.length = 3 ∧
    ¬ ((ensure_quiz_built 3 initSession c8_supply).quiz.length ≤
        initSession.quiz.length + 1) :=
  ⟨rfl, by decide⟩

/-- Claim C9: the completion ratio shown at Complete is 0 for an empty quiz
(no division by zero) and exactly score/total otherwise; for score ≤ total
it always lies in [0, 1]. Python's float division is modeled as exact
rational division. -/
theorem C9_ratio_safe (score total : Nat) (h : score ≤ total) :
    (total = 0 → score_over_total score total = 0) ∧
    (total ≠ 0 → score_over_total score total = (score : ℚ) / (total : ℚ)) ∧
    0 ≤ score_over_total score total ∧ score_over_total score total ≤ 1 := by
  unfold score_over_total
  rcases Nat.eq_zero_or_pos total with h0 | hpos
  · subst h0
    norm_num
  · have hne : total ≠ 0 := Nat.pos_iff_ne_zero.mp hpos
    rw [if_pos hne]
    have htq : (0 : ℚ) < (total : ℚ) := by exact_mod_cast hpos
    refine ⟨fun hc => absurd hc hne, fun _ => rfl, ?_, ?_⟩
    · positivity
    · rw [div_le_one htq]
      exact_mod_cast h

/-- Claim C9, witness: score 1 of total 2 gives ratio 1/2 within bounds. -/
theorem C9_witness :
    (1 : Nat) ≤ 2 ∧
    (((2 : Nat) = 0 → score_over_total 1 2 = 0) ∧
     ((2 : Nat) ≠ 0 → score_over_total 1 2 = ((1 : Nat) : ℚ) / ((2 : Nat) : ℚ)) ∧
     0 ≤ score_over_total 1 2 ∧ score_over_total 1 2 ≤ 1) :=
  ⟨by decide, C9_ratio_safe 1 2 (by decide)⟩

/-- Claim C10: a boolean correct_index passes the `isinstance(x, int)` check
(bool is a subclass of int in Python) and is accepted on an otherwise-valid
object; True behaves as index 1 and False as index 0 when selecting the
correct option. -/
theorem C10_bool_index (b : Bool) :
    validate_question (c10_input b) = .ok (c10_output b) ∧
    qCorrectVal (c10_output b) = .bool b ∧
    isPyInt (.bool b) = true ∧
    (qOptionStrs (c10_output b))[(pyIntVal (.bool b)).toNat]? =
      some (if b then "beta" else "alpha") := by
  cases b <;> exact ⟨rfl, rfl, rfl, rfl⟩

/-- Claim C10, witness: the boolean-index theorem instantiated at True,
whose effective index 1 selects the second option. -/
theorem C10_witness :
    validate_question (c10_input true) = .ok (c10_output true) ∧
    qCorrectVal (c10_output true) = .bool true ∧
    isPyInt (.bool true) = true ∧
    (qOptionStrs (c10_output true))[(pyIntVal (.bool true)).toNat]? =
      some (if true then "beta" else "alpha") :=
  C10_bool_index true
